import Mathlib

/-!
Verification of `thoth/common/openshift.py` (module `thoth.common.openshift`,
class `OpenShift`).

The module is a thin client over the OpenShift/Kubernetes API.  The pieces
with actual logic, embedded here, are:

* the parameter upsert routines `_set_env_var` and `set_template_parameters`
  (an upsert-by-name over an ordered list of name/value entries),
* the status normalizer `_status_report` together with the liveness-kill
  translation performed in `get_pod_status`,
* the namespace precondition checks performed by the `run_*` / `schedule_*` /
  `create_*` operations before their first network interaction, and
* the HTTP response handling of `get_pod_log`.

Python dictionaries are embedded as association lists (`List (String × _)`):
a Python `dict` preserves insertion order, assignment to an existing key
keeps the key's position, and assignment to a fresh key appends at the end.
Python exceptions (`KeyError`, `AttributeError`, raised application errors)
are embedded as `Option`/`Except` results.
-/

namespace OpenShift

/-- A Python value as it occurs in the dictionaries manipulated by the module:
a string, an integer, or `None`. -/
inductive PVal where
  | str : String → PVal
  | int : Int → PVal
  | pyNone : PVal
deriving DecidableEq

/-- Python `str()` on the values of `PVal` (`str(None)` is `"None"`,
`str(5)` is `"5"`). -/
def pyStr : PVal → String
  | PVal.str s => s
  | PVal.int n => toString n
  | PVal.pyNone => "None"

/-- One name/value entry of a template parameter list or of a container
environment list. -/
abbrev Entry := String × PVal

/-- First-match lookup in an association list: the value Python's `d[n]` /
`d.get(n)` reads (keys of a Python dict are unique, so first match is the
match). -/
def alookup {α : Type} (n : String) : List (String × α) → Option α
  | [] => Option.none
  | e :: r => if e.1 = n then some e.2 else alookup n r

/-- Python dict assignment `d[n] = v` on the association-list embedding:
overwrite the first entry with key `n` in place, or append `(n, v)` at the
end if no entry has key `n`. -/
def dict_set {α : Type} (n : String) (v : α) : List (String × α) → List (String × α)
  | [] => [(n, v)]
  | e :: r => if e.1 = n then (n, v) :: r else e :: dict_set n v r

/-- The `for entry in entries: if entry["name"] == name: entry["value"] = v; break`
part of the upsert loops: overwrite the value of the first entry whose name
matches, returning `none` when no entry matches (the loop's `else:` branch). -/
def updateFirst (n : String) (v : PVal) : List Entry → Option (List Entry)
  | [] => Option.none
  | e :: r =>
    if e.1 = n then some ((n, v) :: r)
    else (updateFirst n v r).map (fun l => e :: l)

/-- One iteration of the upsert loops of `_set_env_var` /
`set_template_parameters`: overwrite the first matching entry's value with
`u`, or append `(n, a)` when no entry matches (`for`/`break`/`else`). -/
def upsertOne (u a : PVal) (n : String) (es : List Entry) : List Entry :=
  match updateFirst n u es with
  | some l => l
  | Option.none => es ++ [(n, a)]

/-- The outer loop over the supplied mapping, parameterized by the value
written on overwrite (`f`) and the value written on append (`g`); the two
source functions instantiate `f`/`g` differently. -/
def upsertAll (f g : PVal → PVal) (es : List Entry) : List Entry → List Entry
  | [] => es
  | p :: ps => upsertAll f g (upsertOne (f p.2) (g p.2) p.1 es) ps

/-- The value written by `set_template_parameters` (both on overwrite and on
append): `str(parameter_value) if parameter_value is not None else ""`. -/
def coerce_parameter (v : PVal) : PVal :=
  if v = PVal.pyNone then PVal.str "" else PVal.str (pyStr v)

/-- `OpenShift.set_template_parameters` (source lines 140-176), restricted to
its effect on the template's `parameters` entry list (`template["parameters"]`
is created as `[]` first when absent, which the list argument models):
for each mapping item, overwrite the value of the first entry with the same
name by the string coercion of the new value, else append a fresh entry with
that coerced value. -/
def set_template_parameters (es : List Entry) (ps : List Entry) : List Entry :=
  upsertAll coerce_parameter coerce_parameter es ps

/-- `OpenShift._set_env_var` (source lines 127-138), restricted to its effect
on `template["spec"]["containers"][0]["env"]`: for each mapping item,
overwrite the value of the first entry with the same name by the raw,
uncoerced new value (`entry["value"] = env_var_value`), else append a fresh
entry with value `str(env_var_value)`. -/
def _set_env_var (es : List Entry) (ps : List Entry) : List Entry :=
  upsertAll (fun v => v) (fun v => PVal.str (pyStr v)) es ps

example : _set_env_var [] [("X", PVal.int 5)] = [("X", PVal.str "5")] := by decide

example : _set_env_var [("X", PVal.str "5")] [("X", PVal.int 5)] = [("X", PVal.int 5)] := by decide

example : set_template_parameters [("A", PVal.str "x"), ("B", PVal.int 0)]
    [("B", PVal.pyNone), ("C", PVal.int 7)] =
    [("A", PVal.str "x"), ("B", PVal.str ""), ("C", PVal.str "7")] := by decide

/-- The nested field dictionary found under the sole state key of a container
status (`status[state]` in `_status_report`). -/
abbrev Nested := List (String × PVal)

/-- A container lifecycle state dictionary as handed to `_status_report`:
at most one key (`waiting` / `running` / `terminated`) mapping to its nested
field dictionary.  The embedding keeps it a general association list, as the
source does. -/
abbrev Status := List (String × Nested)

/-- The normalized status record built by `_status_report`:
`dict.fromkeys` over the translation-table targets initializes
`exit_code`, `finished_at`, `reason`, `started_at` and `container` to `None`,
and `state` is always assigned. -/
structure Report where
  state : String
  exit_code : Option PVal := Option.none
  finished_at : Option PVal := Option.none
  reason : Option PVal := Option.none
  started_at : Option PVal := Option.none
  container : Option PVal := Option.none
deriving DecidableEq

/-- `_TRANSLATION_TABLE` of `_status_report` (source lines 377-384), in its
source order.  `reason` appears as target of both `reason` and `message`. -/
def _TRANSLATION_TABLE : List (String × String) :=
  [("exitCode", "exit_code"), ("finishedAt", "finished_at"), ("reason", "reason"),
   ("startedAt", "started_at"), ("containerID", "container"), ("message", "reason")]

/-- Assignment `reported_status[target] = v` for a target drawn from the
translation table. -/
def set_field (r : Report) (target : String) (v : PVal) : Report :=
  if target = "exit_code" then { r with exit_code := some v }
  else if target = "finished_at" then { r with finished_at := some v }
  else if target = "reason" then { r with reason := some v }
  else if target = "started_at" then { r with started_at := some v }
  else if target = "container" then { r with container := some v }
  else r

/-- Stripping of the `docker://` prefix from a container identifier
(source lines 398-402): `value[len("docker://"):] if
value.startswith("docker://") else value`. -/
def strip_docker (s : String) : String :=
  if "docker://".data.isPrefixOf s.data then String.mk (s.data.drop 9) else s

/-- One iteration of the `for key, value in status[state].items()` loop of
`_status_report` (source lines 396-405).  `containerID` values go through the
`docker://` stripping (a non-string value there makes Python's
`value.startswith` raise `AttributeError`, embedded as `Option.none`); every
other key is translated through `_TRANSLATION_TABLE` (an unknown key makes
`_TRANSLATION_TABLE[key]` raise `KeyError`, embedded as `Option.none`). -/
def applyKey (r : Report) (key : String) (v : PVal) : Option Report :=
  if key = "containerID" then
    match v with
    | PVal.str s => some { r with container := some (PVal.str (strip_docker s)) }
    | _ => Option.none
  else
    match alookup key _TRANSLATION_TABLE with
    | some target => some (set_field r target v)
    | Option.none => Option.none

/-- The whole field loop of `_status_report`, threading the possible
`KeyError` / `AttributeError`. -/
def report_fields (r : Report) : Nested → Option Report
  | [] => some r
  | p :: rest =>
    match applyKey r p.1 p.2 with
    | some r2 => report_fields r2 rest
    | Option.none => Option.none

/-- `OpenShift._status_report` (source lines 374-407).  When the status
dictionary does not have exactly one key, the defaulted record with state
`"scheduling"` is returned; otherwise the fields under the sole state key are
copied into the record through the translation table. -/
def _status_report (st : Status) : Option Report :=
  match st with
  | [(state, nested)] => report_fields { state := state } nested
  | _ => some { state := "scheduling" }

/-- The liveness-kill translation of `get_pod_status` (source lines 362-372),
applied to the extracted `state` dictionary before `_status_report` sees it:
when `state.get("terminated", {}).get("exitCode") == 137`, the source then
reads `state["terminated"]["reason"]` (a `KeyError`, embedded as
`Option.none`, when absent) and rewrites it to `"TimeoutKilled"` exactly when
it equals `"Error"`. -/
def translate_timeout (st : Status) : Option Status :=
  match alookup "terminated" st with
  | Option.none => some st
  | some nested =>
    if alookup "exitCode" nested = some (PVal.int 137) then
      match alookup "reason" nested with
      | Option.none => Option.none
      | some r =>
        if r = PVal.str "Error" then
          some (dict_set "terminated" (dict_set "reason" (PVal.str "TimeoutKilled") nested) st)
        else some st
    else some st

/-- The pure core of `OpenShift.get_pod_status_report` (source lines 409-412)
on an already-retrieved state dictionary: the `get_pod_status` translation
followed by `_status_report`. -/
def get_pod_status_report (st : Status) : Option Report :=
  match translate_timeout st with
  | some st2 => _status_report st2
  | Option.none => Option.none

example : _status_report [] = some { state := "scheduling" } := by decide

example : _status_report [("waiting", [("reason", PVal.str "ContainerCreating")])] =
    some { state := "waiting", reason := some (PVal.str "ContainerCreating") } := by decide

example : get_pod_status_report
    [("terminated", [("exitCode", PVal.int 137), ("reason", PVal.str "Error")])] =
    some { state := "terminated", exit_code := some (PVal.int 137),
           reason := some (PVal.str "TimeoutKilled") } := by decide

example : get_pod_status_report
    [("terminated", [("exitCode", PVal.int 137), ("reason", PVal.str "OOMKilled")])] =
    some { state := "terminated", exit_code := some (PVal.int 137),
           reason := some (PVal.str "OOMKilled") } := by decide

example : _status_report [("running", [("containerID", PVal.str "docker://abc123")])] =
    some { state := "running", container := some (PVal.str "abc123") } := by decide

/-- The namespace attributes held by an `OpenShift` instance (constructor,
source lines 94-106).  Each is either a supplied string or unset (`None`). -/
structure Config where
  frontend_namespace : Option String := Option.none
  middletier_namespace : Option String := Option.none
  backend_namespace : Option String := Option.none
  infra_namespace : Option String := Option.none
  amun_inspection_namespace : Option String := Option.none
deriving DecidableEq

/-- Python truthiness of an optional namespace string: `not x` holds for
`None` and for the empty string. -/
def truthy : Option String → Bool
  | Option.none => false
  | some s => !s.isEmpty

/-- The raised application errors of the module relevant here. -/
inductive OSError where
  | configurationError (msg : String)
  | notFoundException (msg : String)
  | httpError (status_code : Nat)
deriving DecidableEq

/-- The first remote interaction an operation performs once its namespace
precondition checks have passed.  Everything after this first call depends on
data received from the cluster and is outside the embedding. -/
inductive NetworkCall where
  | getCronJob (namespace_ name : String)
  | getTemplate (namespace_ label_selector : String)
  | createConfigMap (namespace_ : String)
  | getPodLogHttp (namespace_ pod_id : String)
deriving DecidableEq

/-- Namespace value used after a passed `if not ...` check (under the check it
is a nonempty string; `getD` only discharges the `Option`). -/
def nsVal (ns : Option String) : String := ns.getD ""

/-- Precondition phase of `run_sync` (source lines 178-190): requires the
frontend namespace, then fetches the `graph-sync` CronJob definition. -/
def run_sync_first_call (c : Config) : Except OSError NetworkCall :=
  if !truthy c.frontend_namespace then
    Except.error (OSError.configurationError "Graph sync requires frontend namespace configuration")
  else Except.ok (NetworkCall.getCronJob (nsVal c.frontend_namespace) "graph-sync")

/-- Precondition phase of `get_pod_log` (source lines 212-226): with no
namespace argument it requires the middletier namespace, then issues the HTTP
GET for the pod log. -/
def get_pod_log_first_call (c : Config) (pod_id : String) (namespace_ : Option String) :
    Except OSError NetworkCall :=
  if !truthy namespace_ then
    if !truthy c.middletier_namespace then
      Except.error (OSError.configurationError
        "Middletier namespace is required to check log of pods run in this namespace")
    else Except.ok (NetworkCall.getPodLogHttp (nsVal c.middletier_namespace) pod_id)
  else Except.ok (NetworkCall.getPodLogHttp (nsVal namespace_) pod_id)

/-- Precondition phase of `create_inspection_imagestream` (source lines
463-478): requires infra and Amun inspection namespaces, then fetches the
imagestream template. -/
def create_inspection_imagestream_first_call (c : Config) : Except OSError NetworkCall :=
  if !truthy c.infra_namespace then
    Except.error (OSError.configurationError
      "Infra namespace is required in order to create inspect imagestreams")
  else if !truthy c.amun_inspection_namespace then
    Except.error (OSError.configurationError
      "Unable to create inspection image stream without Amun inspection namespace being set")
  else Except.ok (NetworkCall.getTemplate (nsVal c.infra_namespace) "template=amun-inspect-imagestream")

/-- Precondition phase of `create_inspection_buildconfig` (source lines
502-523). -/
def create_inspection_buildconfig_first_call (c : Config) (use_hw_template : Bool) :
    Except OSError NetworkCall :=
  if !truthy c.infra_namespace then
    Except.error (OSError.configurationError
      "Infra namespace is required in order to create inspect imagestreams")
  else if !truthy c.amun_inspection_namespace then
    Except.error (OSError.configurationError
      "Unable to create inspection buildconfig without Amun inspection namespace being set")
  else
    Except.ok (NetworkCall.getTemplate (nsVal c.infra_namespace)
      (if use_hw_template then "template=amun-inspect-buildconfig-with-cpu"
       else "template=amun-inspect-buildconfig"))

/-- Precondition phase of `schedule_inspection_job` (source lines 547-564):
requires the Amun inspection namespace, then creates the scheduling config
map in it (`_schedule_job` → `create_config_map`). -/
def schedule_inspection_job_first_call (c : Config) : Except OSError NetworkCall :=
  if !truthy c.amun_inspection_namespace then
    Except.error (OSError.configurationError
      "Unable to schedule inspection job without Amun inspection namespace being set")
  else Except.ok (NetworkCall.createConfigMap (nsVal c.amun_inspection_namespace))

/-- Precondition phase of `run_inspection_job` (source lines 566-585). -/
def run_inspection_job_first_call (c : Config) (use_hw_template : Bool) :
    Except OSError NetworkCall :=
  if !truthy c.infra_namespace then
    Except.error (OSError.configurationError
      "Infra namespace is required in order to create inspect imagestreams")
  else if !truthy c.amun_inspection_namespace then
    Except.error (OSError.configurationError
      "Unable to create inspection job without Amun inspection namespace being set")
  else
    Except.ok (NetworkCall.getTemplate (nsVal c.infra_namespace)
      (if use_hw_template then "template=amun-inspect-job-with-cpu"
       else "template=amun-inspect-job"))

/-- Precondition phase of `run_solver` (source lines 626-647).  The source's
middletier check at line 637-638 reads
`ConfigurationError("Solver requires middletier namespace to be specified")`
with no `raise`: the exception object is constructed and immediately
discarded, so the check has no effect, which the unused `let` mirrors. -/
def run_solver_first_call (c : Config) : Except OSError NetworkCall :=
  let _discarded : Option OSError :=
    if !truthy c.middletier_namespace then
      some (OSError.configurationError "Solver requires middletier namespace to be specified")
    else Option.none
  if !truthy c.infra_namespace then
    Except.error (OSError.configurationError
      "Infra namespace is required to gather solver template when running solver")
  else Except.ok (NetworkCall.getTemplate (nsVal c.infra_namespace) "template=solver")

/-- Precondition phase of `run_package_extract` (source lines 690-712). -/
def run_package_extract_first_call (c : Config) : Except OSError NetworkCall :=
  if !truthy c.middletier_namespace then
    Except.error (OSError.configurationError
      "Running package-extract requires middletier namespace to be specified")
  else if !truthy c.infra_namespace then
    Except.error (OSError.configurationError
      "Infra namespace is required to gather package-extract template when running it")
  else Except.ok (NetworkCall.getTemplate (nsVal c.infra_namespace) "template=package-extract")

/-- Precondition phase of `schedule_dependency_monkey` (source lines
782-810). -/
def schedule_dependency_monkey_first_call (c : Config) : Except OSError NetworkCall :=
  if !truthy c.middletier_namespace then
    Except.error (OSError.configurationError
      "Unable to schedule dependency monkey without middletier namespace being set")
  else Except.ok (NetworkCall.createConfigMap (nsVal c.middletier_namespace))

/-- Precondition phase of `run_dependency_monkey` (source lines 812-839). -/
def run_dependency_monkey_first_call (c : Config) : Except OSError NetworkCall :=
  if !truthy c.middletier_namespace then
    Except.error (OSError.configurationError
      "Running Dependency Monkey requires middletier namespace configuration")
  else if !truthy c.infra_namespace then
    Except.error (OSError.configurationError
      "Infra namespace is required to gather Dependency Monkey template when running it")
  else Except.ok (NetworkCall.getTemplate (nsVal c.infra_namespace) "template=dependency-monkey")

/-- Precondition phase of `schedule_adviser` (source lines 883-906). -/
def schedule_adviser_first_call (c : Config) : Except OSError NetworkCall :=
  if !truthy c.backend_namespace then
    Except.error (OSError.configurationError
      "Unable to schedule adviser without backend namespace being set")
  else Except.ok (NetworkCall.createConfigMap (nsVal c.backend_namespace))

/-- Precondition phase of `run_adviser` (source lines 908-932). -/
def run_adviser_first_call (c : Config) : Except OSError NetworkCall :=
  if !truthy c.backend_namespace then
    Except.error (OSError.configurationError
      "Running adviser requires backend namespace configuration")
  else if !truthy c.infra_namespace then
    Except.error (OSError.configurationError
      "Infra namespace is required to gather adviser template when running it")
  else Except.ok (NetworkCall.getTemplate (nsVal c.infra_namespace) "template=adviser")

/-- Precondition phase of `schedule_provenance_checker` (source lines
977-1000). -/
def schedule_provenance_checker_first_call (c : Config) : Except OSError NetworkCall :=
  if !truthy c.backend_namespace then
    Except.error (OSError.configurationError
      "Unable to schedule provenance checker without backend namespace being set")
  else Except.ok (NetworkCall.createConfigMap (nsVal c.backend_namespace))

/-- Precondition phase of `run_provenance_checker` (source lines 1002-1024). -/
def run_provenance_checker_first_call (c : Config) : Except OSError NetworkCall :=
  if !truthy c.backend_namespace then
    Except.error (OSError.configurationError
      "Running provenance checks requires backend namespace configuration")
  else if !truthy c.infra_namespace then
    Except.error (OSError.configurationError
      "Infra namespace is required to gather provenance template when running it")
  else Except.ok (NetworkCall.getTemplate (nsVal c.infra_namespace) "template=provenance-checker")

/-- Whether `requests.Response.raise_for_status` raises for the given status
code: per the `requests` library it raises `HTTPError` exactly for client
errors (400-499) and server errors (500-599). -/
def raise_for_status_raises (status_code : Nat) : Bool :=
  decide (400 ≤ status_code) && decide (status_code < 600)

/-- Response handling of `get_pod_log` (source lines 240-250): 404 raises
`NotFoundException`, 400 returns `None` (pod not yet initialized), then
`raise_for_status` raises for any remaining 4xx/5xx, and every other status
returns the response body. -/
def get_pod_log_handle_response (status_code : Nat) (text : String)
    (pod_id namespace_ : String) : Except OSError (Option String) :=
  if status_code = 404 then
    Except.error (OSError.notFoundException
      ("Pod with id " ++ pod_id ++ " was not found in namespace " ++ namespace_))
  else if status_code = 400 then Except.ok Option.none
  else if raise_for_status_raises status_code then
    Except.error (OSError.httpError status_code)
  else Except.ok (some text)

/-- A configuration with every namespace unset except the infra one: the
concrete instance on which the missing `raise` of `run_solver` shows. -/
def onlyInfraConfig : Config :=
  { infra_namespace := some "thoth-infra" }

example : run_solver_first_call onlyInfraConfig =
    Except.ok (NetworkCall.getTemplate "thoth-infra" "template=solver") := by rfl

example : run_package_extract_first_call onlyInfraConfig =
    Except.error (OSError.configurationError
      "Running package-extract requires middletier namespace to be specified") := by rfl

example : get_pod_log_handle_response 304 "cached" "p" "ns" = Except.ok (some "cached") := by rfl

/-! ### Lemmas about the upsert loops -/

theorem alookup_eq_none {α : Type} {n : String} :
    ∀ {l : List (String × α)}, alookup n l = Option.none ↔ n ∉ l.map Prod.fst
  | [] => by simp [alookup]
  | e :: r => by
    rw [List.map_cons, List.mem_cons]
    by_cases h : e.1 = n
    · simp [alookup, h]
    · rw [alookup, if_neg h, alookup_eq_none]
      constructor
      · intro hr hor
        rcases hor with h1 | h2
        · exact h h1.symm
        · exact hr h2
      · intro hni hr
        exact hni (Or.inr hr)

theorem alookup_mem_keys {α : Type} {n : String} {v : α} :
    ∀ {l : List (String × α)}, alookup n l = some v → n ∈ l.map Prod.fst
  | [], h => by simp [alookup] at h
  | e :: r, h => by
    rw [List.map_cons, List.mem_cons]
    by_cases he : e.1 = n
    · exact Or.inl he.symm
    · rw [alookup, if_neg he] at h
      exact Or.inr (alookup_mem_keys h)

theorem updateFirst_eq_none {n : String} {v : PVal} :
    ∀ {es : List Entry}, updateFirst n v es = Option.none ↔ n ∉ es.map Prod.fst
  | [] => by simp [updateFirst]
  | e :: r => by
    rw [List.map_cons, List.mem_cons]
    by_cases h : e.1 = n
    · simp [updateFirst, h]
    · rw [updateFirst, if_neg h, Option.map_eq_none', updateFirst_eq_none]
      constructor
      · intro hr hor
        rcases hor with h1 | h2
        · exact h h1.symm
        · exact hr h2
      · intro hni hr
        exact hni (Or.inr hr)

theorem updateFirst_keys {n : String} {v : PVal} :
    ∀ {es l : List Entry}, updateFirst n v es = some l → l.map Prod.fst = es.map Prod.fst
  | e :: r, l, h => by
    by_cases he : e.1 = n
    · simp only [updateFirst, if_pos he] at h
      cases h
      simp [he]
    · simp only [updateFirst, if_neg he] at h
      cases hr : updateFirst n v r with
      | none => rw [hr] at h; cases h
      | some l2 =>
        rw [hr] at h
        cases h
        simp [updateFirst_keys hr]

theorem updateFirst_self {n : String} {v : PVal} :
    ∀ {es : List Entry}, alookup n es = some v → updateFirst n v es = some es
  | e :: r, h => by
    by_cases he : e.1 = n
    · simp only [alookup, if_pos he] at h
      cases h
      have : e = (n, e.2) := by
        cases e; simp_all
      rw [updateFirst, if_pos he, ← this]
    · simp only [alookup, if_neg he] at h
      rw [updateFirst, if_neg he, updateFirst_self h]
      rfl

theorem alookup_updateFirst_self {n : String} {v : PVal} :
    ∀ {es l : List Entry}, updateFirst n v es = some l → alookup n l = some v
  | e :: r, l, h => by
    by_cases he : e.1 = n
    · simp only [updateFirst, if_pos he] at h
      cases h
      simp [alookup]
    · simp only [updateFirst, if_neg he] at h
      cases hr : updateFirst n v r with
      | none => rw [hr] at h; cases h
      | some l2 =>
        rw [hr] at h
        cases h
        rw [alookup, if_neg he]
        exact alookup_updateFirst_self hr

theorem alookup_updateFirst_other {m n : String} {v : PVal} (hmn : m ≠ n) :
    ∀ {es l : List Entry}, updateFirst n v es = some l → alookup m l = alookup m es
  | e :: r, l, h => by
    by_cases he : e.1 = n
    · simp only [updateFirst, if_pos he] at h
      cases h
      rw [alookup, alookup, if_neg (fun hn => hmn hn.symm), if_neg (by rw [he]; exact fun hn => hmn hn.symm)]
    · simp only [updateFirst, if_neg he] at h
      cases hr : updateFirst n v r with
      | none => rw [hr] at h; cases h
      | some l2 =>
        rw [hr] at h
        cases h
        rw [alookup, alookup]
        by_cases hem : e.1 = m
        · simp [hem]
        · rw [if_neg hem, if_neg hem]
          exact alookup_updateFirst_other hmn hr

theorem upsertOne_keys (u a : PVal) (n : String) (es : List Entry) :
    (upsertOne u a n es).map Prod.fst =
      if n ∈ es.map Prod.fst then es.map Prod.fst else es.map Prod.fst ++ [n] := by
  unfold upsertOne
  cases h : updateFirst n u es with
  | none =>
    rw [if_neg (updateFirst_eq_none.mp h)]
    simp
  | some l =>
    have hn : n ∈ es.map Prod.fst := by
      by_contra hmem
      rw [updateFirst_eq_none.mpr hmem] at h
      cases h
    rw [if_pos hn]
    exact updateFirst_keys h

theorem alookup_upsertOne_self (u a : PVal) (n : String) (es : List Entry) :
    alookup n (upsertOne u a n es) = some (if n ∈ es.map Prod.fst then u else a) := by
  unfold upsertOne
  cases h : updateFirst n u es with
  | none =>
    rw [if_neg (updateFirst_eq_none.mp h)]
    have : alookup n es = Option.none := alookup_eq_none.mpr (updateFirst_eq_none.mp h)
    clear h
    induction es with
    | nil => simp [alookup]
    | cons e r ih =>
      by_cases he : e.1 = n
      · rw [alookup, if_pos he] at this; cases this
      · rw [alookup, if_neg he] at this
        simpa [alookup, he] using ih this
  | some l =>
    have hn : n ∈ es.map Prod.fst := by
      by_contra hmem
      rw [updateFirst_eq_none.mpr hmem] at h
      cases h
    rw [if_pos hn]
    exact alookup_updateFirst_self h

theorem alookup_upsertOne_other (u a : PVal) {m n : String} (hmn : m ≠ n) (es : List Entry) :
    alookup m (upsertOne u a n es) = alookup m es := by
  unfold upsertOne
  cases h : updateFirst n u es with
  | none =>
    induction es with
    | nil => simp [alookup, Ne.symm hmn]
    | cons e r ih =>
      rw [List.cons_append, alookup, alookup]
      by_cases hem : e.1 = m
      · simp [hem]
      · rw [if_neg hem, if_neg hem]
        cases hr : updateFirst n u r with
        | none => exact ih hr
        | some l2 =>
          exfalso
          rw [updateFirst] at h
          by_cases hen : e.1 = n
          · rw [if_pos hen] at h; cases h
          · rw [if_neg hen, hr] at h; cases h
  | some l => exact alookup_updateFirst_other hmn h

theorem upsertOne_id {u : PVal} (a : PVal) {n : String} {es : List Entry}
    (h : alookup n es = some u) : upsertOne u a n es = es := by
  unfold upsertOne
  rw [updateFirst_self h]

theorem alookup_upsertAll_not_mem (f g : PVal → PVal) {n : String} :
    ∀ (ps : List Entry) (es : List Entry), (∀ q ∈ ps, q.1 ≠ n) →
      alookup n (upsertAll f g es ps) = alookup n es
  | [], es, _ => rfl
  | p :: ps, es, h => by
    rw [upsertAll, alookup_upsertAll_not_mem f g ps _ (fun q hq => h q (List.mem_cons_of_mem _ hq))]
    exact alookup_upsertOne_other _ _ (fun hn => h p (List.mem_cons_self _ _) hn.symm) es

theorem alookup_upsertAll_mem (f g : PVal → PVal) {n : String} {v : PVal} :
    ∀ (ps : List Entry) (es : List Entry), (ps.map Prod.fst).Nodup →
      (n, v) ∈ ps → (∀ p ∈ ps, f p.2 = g p.2) →
      alookup n (upsertAll f g es ps) = some (f v)
  | p :: ps, es, hnd, hmem, hfg => by
    rw [List.map_cons, List.nodup_cons] at hnd
    rcases List.mem_cons.mp hmem with heq | hmem2
    · have hn : p.1 = n := by rw [← heq]
      have hv : p.2 = v := by rw [← heq]
      have hnot : ∀ q ∈ ps, q.1 ≠ n := by
        intro q hq hqn
        apply hnd.1
        rw [hn, ← hqn]
        exact List.mem_map_of_mem Prod.fst hq
      have hgf : f v = g v := by
        rw [← hv]
        exact hfg p (List.mem_cons_self _ _)
      rw [upsertAll, alookup_upsertAll_not_mem f g ps _ hnot, hn, alookup_upsertOne_self,
        hv, ← hgf, ite_self]
    · exact alookup_upsertAll_mem f g ps _ hnd.2 hmem2
        (fun q hq => hfg q (List.mem_cons_of_mem _ hq))

theorem upsertAll_congr_id (f g : PVal → PVal) (L : List Entry) :
    ∀ (ps : List Entry), (∀ p ∈ ps, upsertOne (f p.2) (g p.2) p.1 L = L) →
      upsertAll f g L ps = L
  | [], _ => rfl
  | p :: ps, h => by
    rw [upsertAll, h p (List.mem_cons_self _ _)]
    exact upsertAll_congr_id f g L ps (fun q hq => h q (List.mem_cons_of_mem _ hq))

theorem upsertAll_idem (f g : PVal → PVal) (es ps : List Entry)
    (hnd : (ps.map Prod.fst).Nodup) (hfg : ∀ p ∈ ps, f p.2 = g p.2) :
    upsertAll f g (upsertAll f g es ps) ps = upsertAll f g es ps := by
  apply upsertAll_congr_id
  intro p hp
  have hmem : (p.1, p.2) ∈ ps := by
    cases p; exact hp
  exact upsertOne_id (g p.2) (alookup_upsertAll_mem f g ps es hnd hmem hfg)

/-- Names appended by an upsert pass, following the specification's wording
(section 4.1): the names of the mapping, in mapping-iteration order, that do
not match any name already present (`base` starts as the names of the
pre-existing entries and grows with each append). -/
def newKeys (base : List String) : List Entry → List String
  | [] => []
  | p :: ps => if p.1 ∈ base then newKeys base ps else p.1 :: newKeys (base ++ [p.1]) ps

theorem upsertAll_keys (f g : PVal → PVal) :
    ∀ (ps es : List Entry),
      (upsertAll f g es ps).map Prod.fst =
        es.map Prod.fst ++ newKeys (es.map Prod.fst) ps
  | [], es => by simp [upsertAll, newKeys]
  | p :: ps, es => by
    rw [upsertAll, upsertAll_keys f g ps, upsertOne_keys, newKeys]
    by_cases hp : p.1 ∈ es.map Prod.fst
    · rw [if_pos hp, if_pos hp]
    · rw [if_neg hp, if_neg hp, List.append_assoc]
      rfl

/-- Overwriting the first matching entry, positionally: with no match in the
prefix, `updateFirst` rewrites exactly the displayed entry. -/
theorem updateFirst_split {n : String} {v w : PVal} {es₂ : List Entry} :
    ∀ {es₁ : List Entry}, n ∉ es₁.map Prod.fst →
      updateFirst n v (es₁ ++ (n, w) :: es₂) = some (es₁ ++ (n, v) :: es₂)
  | [], _ => by simp [updateFirst]
  | e :: r, h => by
    simp only [List.map_cons, List.mem_cons, not_or] at h
    rw [List.cons_append, updateFirst, if_neg (fun he => h.1 he.symm),
      updateFirst_split h.2]
    rfl

/-! ### Claims C3, C4, C8: the parameter upsert -/

/-- C3 (amended): applying the same mapping (distinct names, as in a Python
keyword/dict mapping) twice with `set_template_parameters` yields the same
entry list as applying it once; the same holds for `_set_env_var` provided
every value of the mapping is a string.  (For a non-string value
`_set_env_var` is not idempotent: the first pass appends the `str()`-coerced
value while the second pass overwrites it with the raw value; see the
counterexample.) -/
theorem c3_upsert_idempotent (es ps : List Entry) (hnd : (ps.map Prod.fst).Nodup) :
    set_template_parameters (set_template_parameters es ps) ps =
      set_template_parameters es ps ∧
    ((∀ p ∈ ps, ∃ s, p.2 = PVal.str s) →
      _set_env_var (_set_env_var es ps) ps = _set_env_var es ps) := by
  constructor
  · exact upsertAll_idem _ _ es ps hnd (fun _ _ => rfl)
  · intro hstr
    apply upsertAll_idem _ _ es ps hnd
    intro p hp
    obtain ⟨s, hs⟩ := hstr p hp
    rw [hs]
    rfl

/-- C3 counterexample: `_set_env_var` applied twice with the integer value 5
for a fresh name differs from applying it once — the first pass appends the
string `"5"`, the second pass overwrites it with the raw integer 5. -/
theorem c3_counterexample :
    _set_env_var (_set_env_var [] [("X", PVal.int 5)]) [("X", PVal.int 5)] ≠
      _set_env_var [] [("X", PVal.int 5)] := by decide

theorem c3_witness :
    set_template_parameters
        (set_template_parameters [("A", PVal.str "x")] [("A", PVal.int 1), ("B", PVal.pyNone)])
        [("A", PVal.int 1), ("B", PVal.pyNone)] =
      set_template_parameters [("A", PVal.str "x")] [("A", PVal.int 1), ("B", PVal.pyNone)] ∧
    _set_env_var (_set_env_var [] [("B", PVal.str "v")]) [("B", PVal.str "v")] =
      _set_env_var [] [("B", PVal.str "v")] :=
  ⟨(c3_upsert_idempotent [("A", PVal.str "x")] [("A", PVal.int 1), ("B", PVal.pyNone)]
      (by decide)).1,
   (c3_upsert_idempotent [] [("B", PVal.str "v")] (by decide)).2 (by
      intro p hp
      rw [List.mem_singleton] at hp
      exact ⟨"v", by rw [hp]⟩)⟩

/-- C4 (amended): for a mapped name with no matching entry,
`set_template_parameters` appends the name with the value coerced to string
(empty string for `None`), and `_set_env_var` appends it with Python
`str()`-coercion (so `None` becomes `"None"`); when a first matching entry
exists, `set_template_parameters` overwrites its value with the
string-coerced value, while `_set_env_var` overwrites it with the raw,
uncoerced value. -/
theorem c4_upsert_characterization (n : String) (v : PVal) :
    (∀ es : List Entry, n ∉ es.map Prod.fst →
      set_template_parameters es [(n, v)] = es ++ [(n, coerce_parameter v)] ∧
      _set_env_var es [(n, v)] = es ++ [(n, PVal.str (pyStr v))]) ∧
    (∀ (es₁ : List Entry) (w : PVal) (es₂ : List Entry), n ∉ es₁.map Prod.fst →
      set_template_parameters (es₁ ++ (n, w) :: es₂) [(n, v)] =
        es₁ ++ (n, coerce_parameter v) :: es₂ ∧
      _set_env_var (es₁ ++ (n, w) :: es₂) [(n, v)] = es₁ ++ (n, v) :: es₂) := by
  constructor
  · intro es h
    constructor <;>
      simp [set_template_parameters, _set_env_var, upsertAll, upsertOne,
        updateFirst_eq_none.mpr h]
  · intro es₁ w es₂ h
    constructor <;>
      simp [set_template_parameters, _set_env_var, upsertAll, upsertOne,
        updateFirst_split h]

/-- C4 counterexample: on an existing entry, `_set_env_var` stores the raw
integer 5 rather than the string coercion `"5"` the claim requires. -/
theorem c4_counterexample :
    _set_env_var [("X", PVal.str "old")] [("X", PVal.int 5)] = [("X", PVal.int 5)] ∧
    ([("X", PVal.int 5)] : List Entry) ≠ [("X", PVal.str "5")] := by decide

theorem c4_witness :
    set_template_parameters [("A", PVal.str "a")] [("N", PVal.pyNone)] =
      [("A", PVal.str "a")] ++ [("N", coerce_parameter PVal.pyNone)] ∧
    _set_env_var ([("A", PVal.str "a")] ++ ("N", PVal.str "w") :: []) [("N", PVal.int 3)] =
      [("A", PVal.str "a")] ++ ("N", PVal.int 3) :: [] :=
  ⟨((c4_upsert_characterization "N" PVal.pyNone).1 [("A", PVal.str "a")] (by decide)).1,
   ((c4_upsert_characterization "N" (PVal.int 3)).2 [("A", PVal.str "a")] (PVal.str "w") []
      (by decide)).2⟩

/-- C8: both upsert routines keep every pre-existing entry, in its original
relative order (the name sequence of the result starts with the unchanged
name sequence of the input), and append entries for unmatched names at the
end, in mapping-iteration order (`newKeys`). -/
theorem c8_upsert_preserves_order (es ps : List Entry) :
    (set_template_parameters es ps).map Prod.fst =
      es.map Prod.fst ++ newKeys (es.map Prod.fst) ps ∧
    (_set_env_var es ps).map Prod.fst =
      es.map Prod.fst ++ newKeys (es.map Prod.fst) ps :=
  ⟨upsertAll_keys _ _ ps es, upsertAll_keys _ _ ps es⟩

/-! ### Lemmas about the status normalizer -/

theorem filter_cons_true (f : String × PVal → Bool) (a : String × PVal)
    (l : List (String × PVal)) (h : f a = true) :
    (a :: l).filter f = a :: l.filter f := by
  rw [List.filter_cons, if_pos h]

theorem filter_cons_false (f : String × PVal → Bool) (a : String × PVal)
    (l : List (String × PVal)) (h : f a = false) :
    (a :: l).filter f = l.filter f := by
  rw [List.filter_cons, if_neg (by rw [h]; exact Bool.false_ne_true)]

/-- Complete enumeration of the translation table lookups that succeed. -/
theorem alookup_table_cases {k target : String}
    (h : alookup k _TRANSLATION_TABLE = some target) :
    (k = "exitCode" ∧ target = "exit_code") ∨ (k = "finishedAt" ∧ target = "finished_at") ∨
    (k = "reason" ∧ target = "reason") ∨ (k = "startedAt" ∧ target = "started_at") ∨
    (k = "containerID" ∧ target = "container") ∨ (k = "message" ∧ target = "reason") := by
  simp only [_TRANSLATION_TABLE, alookup] at h
  split_ifs at h with h1 h2 h3 h4 h5 h6
  · cases h; exact Or.inl ⟨h1.symm, rfl⟩
  · cases h; exact Or.inr (Or.inl ⟨h2.symm, rfl⟩)
  · cases h; exact Or.inr (Or.inr (Or.inl ⟨h3.symm, rfl⟩))
  · cases h; exact Or.inr (Or.inr (Or.inr (Or.inl ⟨h4.symm, rfl⟩)))
  · cases h; exact Or.inr (Or.inr (Or.inr (Or.inr (Or.inl ⟨h5.symm, rfl⟩))))
  · cases h; exact Or.inr (Or.inr (Or.inr (Or.inr (Or.inr ⟨h6.symm, rfl⟩))))

/-- A successful `applyKey` step is either the `containerID` branch on a
string value, or a translation-table assignment. -/
theorem applyKey_elim {r r2 : Report} {k : String} {v : PVal}
    (h : applyKey r k v = some r2) :
    (k = "containerID" ∧ ∃ s, v = PVal.str s ∧
        r2 = { r with container := some (PVal.str (strip_docker s)) }) ∨
    (k ≠ "containerID" ∧ ∃ target, alookup k _TRANSLATION_TABLE = some target ∧
        r2 = set_field r target v) := by
  by_cases hc : k = "containerID"
  · subst hc
    left
    refine ⟨rfl, ?_⟩
    cases v with
    | str s =>
      have h2 : some { r with container := some (PVal.str (strip_docker s)) } = some r2 := h
      cases h2
      exact ⟨s, rfl, rfl⟩
    | int n =>
      have h2 : (Option.none : Option Report) = some r2 := h
      cases h2
    | pyNone =>
      have h2 : (Option.none : Option Report) = some r2 := h
      cases h2
  · right
    refine ⟨hc, ?_⟩
    rw [applyKey.eq_def, if_neg hc] at h
    cases halo : alookup k _TRANSLATION_TABLE with
    | none => rw [halo] at h; cases h
    | some target =>
      rw [halo] at h
      cases h
      exact ⟨target, rfl, rfl⟩

theorem applyKey_reason_of_ne {r r2 : Report} {k : String} {v : PVal}
    (h : applyKey r k v = some r2) (hk1 : k ≠ "reason") (hk2 : k ≠ "message") :
    r2.reason = r.reason := by
  rcases applyKey_elim h with ⟨hc, s, hs, hr2⟩ | ⟨hc, target, halo, hr2⟩
  · subst hr2; rfl
  · subst hr2
    rcases alookup_table_cases halo with ⟨hk, ht⟩ | ⟨hk, ht⟩ | ⟨hk, ht⟩ | ⟨hk, ht⟩ |
      ⟨hk, ht⟩ | ⟨hk, ht⟩
    · subst ht; rfl
    · subst ht; rfl
    · exact absurd hk hk1
    · subst ht; rfl
    · exact absurd hk hc
    · exact absurd hk hk2

theorem applyKey_reason_of_eq {r r2 : Report} {k : String} {v : PVal}
    (h : applyKey r k v = some r2) (hk : k = "reason" ∨ k = "message") :
    r2.reason = some v := by
  rcases hk with hk | hk <;> subst hk
  · have h2 : some (set_field r "reason" v) = some r2 := h
    cases h2
    rfl
  · have h2 : some (set_field r "reason" v) = some r2 := h
    cases h2
    rfl

theorem applyKey_container_of_ne {r r2 : Report} {k : String} {v : PVal}
    (h : applyKey r k v = some r2) (hk : k ≠ "containerID") :
    r2.container = r.container := by
  rcases applyKey_elim h with ⟨hc, _, _, _⟩ | ⟨hc, target, halo, hr2⟩
  · exact absurd hc hk
  · subst hr2
    rcases alookup_table_cases halo with ⟨hk2, ht⟩ | ⟨hk2, ht⟩ | ⟨hk2, ht⟩ | ⟨hk2, ht⟩ |
      ⟨hk2, ht⟩ | ⟨hk2, ht⟩
    · subst ht; rfl
    · subst ht; rfl
    · subst ht; rfl
    · subst ht; rfl
    · exact absurd hk2 hk
    · subst ht; rfl

theorem applyKey_container_self {r r2 : Report} {v : PVal}
    (h : applyKey r "containerID" v = some r2) :
    ∃ s, v = PVal.str s ∧ r2.container = some (PVal.str (strip_docker s)) := by
  cases v with
  | str s =>
    have h2 : some { r with container := some (PVal.str (strip_docker s)) } = some r2 := h
    cases h2
    exact ⟨s, rfl, rfl⟩
  | int n =>
    have h2 : (Option.none : Option Report) = some r2 := h
    cases h2
  | pyNone =>
    have h2 : (Option.none : Option Report) = some r2 := h
    cases h2

/-- The reason slot after the `_status_report` field loop is the value of the
last nested entry keyed `reason` or `message` (both translate to `reason`,
and each assignment overwrites the previous one), or the initial value when
no such entry exists. -/
theorem report_fields_reason :
    ∀ (nested : Nested) (r rep : Report), report_fields r nested = some rep →
      rep.reason =
        ((nested.filter (fun p => p.1 == "reason" || p.1 == "message")).getLast?).elim
          r.reason (fun q => some q.2)
  | [], r, rep, h => by
    cases h
    rfl
  | p :: rest, r, rep, h => by
    rw [report_fields] at h
    cases hap : applyKey r p.1 p.2 with
    | none => rw [hap] at h; cases h
    | some r2 =>
      rw [hap] at h
      have ih := report_fields_reason rest r2 rep h
      by_cases hp : p.1 = "reason" ∨ p.1 = "message"
      · have hb : (p.1 == "reason" || p.1 == "message") = true := by
          rcases hp with hp | hp <;> simp [hp]
        cases hfr : rest.filter (fun q => q.1 == "reason" || q.1 == "message") with
        | nil =>
          rw [hfr] at ih
          have ih2 : rep.reason = r2.reason := ih
          rw [filter_cons_true (fun q => q.1 == "reason" || q.1 == "message") p rest hb, hfr]
          have hone : ((p :: ([] : List (String × PVal))).getLast?).elim
              r.reason (fun q => some q.2) = some p.2 := rfl
          rw [hone, ih2, applyKey_reason_of_eq hap hp]
        | cons q t =>
          rw [hfr] at ih
          rw [filter_cons_true (fun q2 => q2.1 == "reason" || q2.1 == "message") p rest hb,
            hfr, List.getLast?_cons_cons, ih]
          cases hql : (q :: t).getLast? with
          | none =>
            rw [List.getLast?_eq_none_iff] at hql
            cases hql
          | some x => rfl
      · rw [not_or] at hp
        have hb : (p.1 == "reason" || p.1 == "message") = false := by
          rw [Bool.or_eq_false_iff]
          exact ⟨beq_eq_false_iff_ne.mpr hp.1, beq_eq_false_iff_ne.mpr hp.2⟩
        rw [filter_cons_false (fun q => q.1 == "reason" || q.1 == "message") p rest hb, ih,
          applyKey_reason_of_ne hap hp.1 hp.2]

/-- The container slot after the `_status_report` field loop is determined by
the last nested entry keyed `containerID` (necessarily a string when the loop
completes), or keeps its initial value when no such entry exists. -/
theorem report_fields_container :
    ∀ (nested : Nested) (r rep : Report), report_fields r nested = some rep →
      (((nested.filter (fun p => p.1 == "containerID")).getLast? = Option.none →
          rep.container = r.container) ∧
        ∀ q, (nested.filter (fun p => p.1 == "containerID")).getLast? = some q →
          ∃ s, q.2 = PVal.str s ∧ rep.container = some (PVal.str (strip_docker s)))
  | [], r, rep, h => by
    cases h
    exact ⟨fun _ => rfl, fun q hq => by cases hq⟩
  | p :: rest, r, rep, h => by
    rw [report_fields] at h
    cases hap : applyKey r p.1 p.2 with
    | none => rw [hap] at h; cases h
    | some r2 =>
      rw [hap] at h
      have ih := report_fields_container rest r2 rep h
      by_cases hp : p.1 = "containerID"
      · have hb : (p.1 == "containerID") = true := beq_iff_eq.mpr hp
        have hap2 : applyKey r "containerID" p.2 = some r2 := by rw [← hp]; exact hap
        obtain ⟨s, hs, hr2⟩ := applyKey_container_self hap2
        cases hfr : rest.filter (fun q => q.1 == "containerID") with
        | nil =>
          rw [hfr] at ih
          have ih2 : rep.container = r2.container := ih.1 rfl
          rw [filter_cons_true (fun q => q.1 == "containerID") p rest hb, hfr]
          have hone : ((p :: ([] : List (String × PVal))).getLast? : Option (String × PVal)) =
              some p := rfl
          rw [hone]
          constructor
          · intro hnone
            cases hnone
          · intro q hq
            cases hq
            exact ⟨s, hs, by rw [ih2, hr2]⟩
        | cons q t =>
          rw [hfr] at ih
          rw [filter_cons_true (fun q2 => q2.1 == "containerID") p rest hb, hfr,
            List.getLast?_cons_cons]
          constructor
          · intro hnone
            rw [List.getLast?_eq_none_iff] at hnone
            cases hnone
          · exact ih.2
      · have hb : (p.1 == "containerID") = false := beq_eq_false_iff_ne.mpr hp
        rw [filter_cons_false (fun q => q.1 == "containerID") p rest hb]
        have hcc := applyKey_container_of_ne hap hp
        exact ⟨fun hnone => by rw [ih.1 hnone, hcc], ih.2⟩

/-- A single matching key in a dictionary with distinct keys: the filter for
that key returns exactly the entry `alookup` finds. -/
theorem filter_key_of_nodup {n : String} {v : PVal} :
    ∀ {l : List (String × PVal)}, (l.map Prod.fst).Nodup → alookup n l = some v →
      l.filter (fun p => p.1 == n) = [(n, v)]
  | [], _, h => by rw [alookup] at h; cases h
  | (e1, e2) :: r, hnd, h => by
    rw [List.map_cons, List.nodup_cons] at hnd
    by_cases he : e1 = n
    · subst he
      rw [alookup, if_pos rfl] at h
      cases h
      rw [filter_cons_true (fun p => p.1 == e1) (e1, e2) r (beq_iff_eq.mpr rfl)]
      have hr : r.filter (fun p => p.1 == e1) = [] := by
        rw [List.filter_eq_nil_iff]
        intro p hp hpe
        rw [beq_iff_eq] at hpe
        exact hnd.1 (List.mem_map.mpr ⟨p, hp, hpe⟩)
      rw [hr]
    · rw [alookup, if_neg he] at h
      rw [filter_cons_false (fun p => p.1 == n) (e1, e2) r (beq_eq_false_iff_ne.mpr he)]
      exact filter_key_of_nodup hnd.2 h

/-- With no `message` key present, the reason/message filter degenerates to
the reason filter. -/
theorem filter_reason_message {l : Nested} (hmsg : "message" ∉ l.map Prod.fst) :
    l.filter (fun p => p.1 == "reason" || p.1 == "message") =
      l.filter (fun p => p.1 == "reason") := by
  apply List.filter_congr
  intro p hp
  have hne : p.1 ≠ "message" := by
    intro h
    exact hmsg (by rw [← h]; exact List.mem_map_of_mem Prod.fst hp)
  rw [beq_eq_false_iff_ne.mpr hne, Bool.or_false]

theorem dict_set_keys {α : Type} {n : String} {v : α} :
    ∀ {l : List (String × α)}, n ∈ l.map Prod.fst →
      (dict_set n v l).map Prod.fst = l.map Prod.fst
  | [], h => by cases h
  | (e1, e2) :: r, h => by
    by_cases he : e1 = n
    · rw [dict_set, if_pos he, List.map_cons, List.map_cons, he]
    · rw [List.map_cons, List.mem_cons] at h
      rcases h with h | h
      · exact absurd h.symm he
      · rw [dict_set, if_neg he, List.map_cons, List.map_cons, dict_set_keys h]

theorem alookup_dict_set_self {α : Type} (n : String) (v : α) :
    ∀ (l : List (String × α)), alookup n (dict_set n v l) = some v
  | [] => by rw [dict_set, alookup, if_pos rfl]
  | (e1, e2) :: r => by
    by_cases he : e1 = n
    · rw [dict_set, if_pos he, alookup, if_pos rfl]
    · rw [dict_set, if_neg he, alookup, if_neg he]
      exact alookup_dict_set_self n v r

/-- Evaluation of the `get_pod_status` translation on a `terminated` state
dictionary when the exit code is 137 and the raw reason is `"Error"`. -/
theorem translate_timeout_error {nested : Nested}
    (hexit : alookup "exitCode" nested = some (PVal.int 137))
    (hreason : alookup "reason" nested = some (PVal.str "Error")) :
    translate_timeout [("terminated", nested)] =
      some [("terminated", dict_set "reason" (PVal.str "TimeoutKilled") nested)] := by
  have h0 : translate_timeout [("terminated", nested)] =
      (if alookup "exitCode" nested = some (PVal.int 137) then
        match alookup "reason" nested with
        | Option.none => Option.none
        | some r =>
          if r = PVal.str "Error" then
            some [("terminated", dict_set "reason" (PVal.str "TimeoutKilled") nested)]
          else some [("terminated", nested)]
      else some [("terminated", nested)]) := rfl
  rw [h0, hexit, if_pos rfl, hreason]
  rfl

/-- Evaluation of the `get_pod_status` translation on a `terminated` state
dictionary when the exit code is 137 and the raw reason is not `"Error"`. -/
theorem translate_timeout_noerror {nested : Nested} {r : PVal}
    (hexit : alookup "exitCode" nested = some (PVal.int 137))
    (hreason : alookup "reason" nested = some r) (hr : r ≠ PVal.str "Error") :
    translate_timeout [("terminated", nested)] = some [("terminated", nested)] := by
  have h0 : translate_timeout [("terminated", nested)] =
      (if alookup "exitCode" nested = some (PVal.int 137) then
        match alookup "reason" nested with
        | Option.none => Option.none
        | some r2 =>
          if r2 = PVal.str "Error" then
            some [("terminated", dict_set "reason" (PVal.str "TimeoutKilled") nested)]
          else some [("terminated", nested)]
      else some [("terminated", nested)]) := rfl
  rw [h0, hexit, if_pos rfl, hreason]
  show (if r = PVal.str "Error" then
      some [("terminated", dict_set "reason" (PVal.str "TimeoutKilled") nested)]
    else some [("terminated", nested)]) = some [("terminated", nested)]
  rw [if_neg hr]

theorem alookup_isSome_of_mem {α : Type} {n : String} :
    ∀ {l : List (String × α)}, n ∈ l.map Prod.fst → ∃ v, alookup n l = some v
  | [], h => by cases h
  | e :: r, h => by
    by_cases he : e.1 = n
    · exact ⟨e.2, by rw [alookup, if_pos he]⟩
    · rw [List.map_cons, List.mem_cons] at h
      rcases h with h | h
      · exact absurd h.symm he
      · obtain ⟨v, hv⟩ := alookup_isSome_of_mem h
        exact ⟨v, by rw [alookup, if_neg he, hv]⟩

/-- A field assignment succeeds exactly on a translation-table key, with a
string value when the key is `containerID`. -/
theorem applyKey_isSome (r : Report) {k : String} (v : PVal)
    (hk : k ∈ _TRANSLATION_TABLE.map Prod.fst)
    (hv : k = "containerID" → ∃ c, v = PVal.str c) :
    ∃ r2, applyKey r k v = some r2 := by
  by_cases hc : k = "containerID"
  · subst hc
    obtain ⟨c, hcv⟩ := hv rfl
    subst hcv
    exact ⟨{ r with container := some (PVal.str (strip_docker c)) }, rfl⟩
  · obtain ⟨target, halo⟩ := alookup_isSome_of_mem hk
    refine ⟨set_field r target v, ?_⟩
    rw [applyKey.eq_def, if_neg hc, halo]

theorem report_fields_isSome :
    ∀ (nested : Nested) (r : Report),
      (∀ p ∈ nested, p.1 ∈ _TRANSLATION_TABLE.map Prod.fst ∧
        (p.1 = "containerID" → ∃ c, p.2 = PVal.str c)) →
      ∃ rep, report_fields r nested = some rep
  | [], r, _ => ⟨r, rfl⟩
  | p :: rest, r, hvalid => by
    obtain ⟨r2, hr2⟩ := applyKey_isSome r p.2 (hvalid p (List.mem_cons_self _ _)).1
      (hvalid p (List.mem_cons_self _ _)).2
    obtain ⟨rep, hrep⟩ := report_fields_isSome rest r2
      (fun q hq => hvalid q (List.mem_cons_of_mem _ hq))
    refine ⟨rep, ?_⟩
    rw [report_fields, hr2]
    exact hrep

theorem report_fields_none :
    ∀ (nested : Nested) (r : Report),
      (∃ p ∈ nested, p.1 ∉ _TRANSLATION_TABLE.map Prod.fst) →
      report_fields r nested = Option.none
  | [], _, hbad => by
    obtain ⟨q, hq, _⟩ := hbad
    cases hq
  | p :: rest, r, hbad => by
    cases hap : applyKey r p.1 p.2 with
    | none => rw [report_fields, hap]
    | some r2 =>
      rw [report_fields, hap]
      show report_fields r2 rest = Option.none
      obtain ⟨q, hq, hqbad⟩ := hbad
      rcases List.mem_cons.mp hq with rfl | hq2
      · exfalso
        rcases applyKey_elim hap with ⟨hc, _⟩ | ⟨_, target, halo, _⟩
        · exact hqbad (by rw [hc]; decide)
        · exact hqbad (alookup_mem_keys halo)
      · exact report_fields_none rest r2 ⟨q, hq2, hqbad⟩

/-! ### Claims C2, C5, C6, C7, C10: the status normalizer -/

/-- C5 (amended): in `_status_report` the nested `message` field maps to the
output `reason` field unconditionally — there is no "only if not already set"
guard — so the last of the `reason`/`message` entries in iteration order
wins: for every single-key status that normalizes successfully, the output
reason is the value of the last nested `reason` or `message` entry, and is
absent when neither occurs. -/
theorem c5_reason_last_write (s : String) (nested : Nested) (rep : Report)
    (h : _status_report [(s, nested)] = some rep) :
    rep.reason =
      ((nested.filter (fun p => p.1 == "reason" || p.1 == "message")).getLast?).map
        Prod.snd := by
  have h2 : report_fields { state := s } nested = some rep := h
  have h3 := report_fields_reason nested { state := s } rep h2
  rw [h3]
  cases hx : (nested.filter (fun p => p.1 == "reason" || p.1 == "message")).getLast? with
  | none => rfl
  | some q => rfl

/-- C5 counterexample: with a raw `reason` entry followed by a `message`
entry under the sole state key, the output reason is the message value, not
the raw reason value the claim requires. -/
theorem c5_counterexample :
    _status_report [("terminated",
        [("reason", PVal.str "Boom"), ("message", PVal.str "details")])] =
      some { state := "terminated", reason := some (PVal.str "details") } ∧
    some (PVal.str "details") ≠ some (PVal.str "Boom") := ⟨by decide, by decide⟩

theorem c5_witness :
    ({ state := "running", reason := some (PVal.str "b") } : Report).reason =
      ((([("reason", PVal.str "a"), ("message", PVal.str "b")] : Nested).filter
        (fun p => p.1 == "reason" || p.1 == "message")).getLast?).map Prod.snd :=
  c5_reason_last_write "running" [("reason", PVal.str "a"), ("message", PVal.str "b")]
    { state := "running", reason := some (PVal.str "b") } (by decide)

/-- C6: a status dictionary without exactly one key — empty, or with more
than one top-level key — normalizes to the `"scheduling"` report with every
other field absent. -/
theorem c6_scheduling (st : Status) (h : st.length ≠ 1) :
    _status_report st =
      some { state := "scheduling", exit_code := Option.none, finished_at := Option.none,
             reason := Option.none, started_at := Option.none, container := Option.none } := by
  match st with
  | [] => rfl
  | [(s, n)] => exact absurd rfl h
  | a :: b :: t => rfl

theorem c6_witness :
    _status_report [] =
      some { state := "scheduling", exit_code := Option.none, finished_at := Option.none,
             reason := Option.none, started_at := Option.none, container := Option.none } :=
  c6_scheduling [] (by decide)

/-- C7: when the sole state's fields (distinct names, as in a Python dict)
include a string `containerID`, a successful normalization reports it in the
`container` field with a leading literal `docker://` prefix stripped, and
unchanged when the prefix is absent. -/
theorem c7_container_strip (s : String) (nested : Nested) (c : String)
    (hnd : (nested.map Prod.fst).Nodup)
    (hc : alookup "containerID" nested = some (PVal.str c))
    (rep : Report) (h : _status_report [(s, nested)] = some rep) :
    rep.container = some (PVal.str
      (if "docker://".data.isPrefixOf c.data then String.mk (c.data.drop 9) else c)) := by
  have h2 : report_fields { state := s } nested = some rep := h
  have h3 := (report_fields_container nested { state := s } rep h2).2
  have hfil : nested.filter (fun p => p.1 == "containerID") = [("containerID", PVal.str c)] :=
    filter_key_of_nodup hnd hc
  have h4 := h3 ("containerID", PVal.str c) (by rw [hfil]; rfl)
  obtain ⟨s2, hs2, hrep⟩ := h4
  injection hs2 with hcs
  subst hcs
  rw [hrep]
  rfl

theorem c7_witness :
    ({ state := "running", container := some (PVal.str "abc123") } : Report).container =
      some (PVal.str (if "docker://".data.isPrefixOf "docker://abc123".data
        then String.mk ("docker://abc123".data.drop 9) else "docker://abc123")) :=
  c7_container_strip "running" [("containerID", PVal.str "docker://abc123")] "docker://abc123"
    (by decide) (by decide)
    { state := "running", container := some (PVal.str "abc123") } (by decide)

/-- C2 (amended): for a `terminated` status whose nested fields (distinct
names, no `message` entry) carry exit code 137 and a raw reason `r`, the
normalization pipeline — the `get_pod_status` liveness-kill translation
followed by `_status_report` — reports reason `"TimeoutKilled"` exactly when
`r` is the string `"Error"`, and passes `r` (for instance `"OOMKilled"`)
through unchanged otherwise.  (A `message` entry after `reason` would
overwrite the reported reason; see C5.) -/
theorem c2_timeout_killed (nested : Nested) (r : PVal)
    (hnd : (nested.map Prod.fst).Nodup)
    (hexit : alookup "exitCode" nested = some (PVal.int 137))
    (hreason : alookup "reason" nested = some r)
    (hmsg : "message" ∉ nested.map Prod.fst)
    (rep : Report) (h : get_pod_status_report [("terminated", nested)] = some rep) :
    rep.reason = some (if r = PVal.str "Error" then PVal.str "TimeoutKilled" else r) := by
  by_cases hr : r = PVal.str "Error"
  · subst hr
    rw [if_pos rfl]
    rw [get_pod_status_report.eq_def, translate_timeout_error hexit hreason] at h
    have h3 : report_fields { state := "terminated" }
        (dict_set "reason" (PVal.str "TimeoutKilled") nested) = some rep := h
    have hmem_r : "reason" ∈ nested.map Prod.fst := alookup_mem_keys hreason
    have hkeys : (dict_set "reason" (PVal.str "TimeoutKilled") nested).map Prod.fst =
        nested.map Prod.fst := dict_set_keys hmem_r
    have hnd2 : ((dict_set "reason" (PVal.str "TimeoutKilled") nested).map Prod.fst).Nodup := by
      rw [hkeys]; exact hnd
    have hmsg2 : "message" ∉
        (dict_set "reason" (PVal.str "TimeoutKilled") nested).map Prod.fst := by
      rw [hkeys]; exact hmsg
    have halo2 : alookup "reason" (dict_set "reason" (PVal.str "TimeoutKilled") nested) =
        some (PVal.str "TimeoutKilled") := alookup_dict_set_self _ _ _
    have hlast := report_fields_reason _ _ rep h3
    rw [filter_reason_message hmsg2, filter_key_of_nodup hnd2 halo2] at hlast
    exact hlast
  · rw [if_neg hr]
    rw [get_pod_status_report.eq_def, translate_timeout_noerror hexit hreason hr] at h
    have h3 : report_fields { state := "terminated" } nested = some rep := h
    have hlast := report_fields_reason _ _ rep h3
    rw [filter_reason_message hmsg, filter_key_of_nodup hnd hreason] at hlast
    exact hlast

/-- C2 counterexample: with a `message` entry after `reason`, the message
value overwrites the translated reason, so the reported reason is not
`"TimeoutKilled"` even for exit code 137 with raw reason `"Error"`. -/
theorem c2_counterexample :
    get_pod_status_report [("terminated",
        [("exitCode", PVal.int 137), ("reason", PVal.str "Error"),
         ("message", PVal.str "boom")])] =
      some { state := "terminated", exit_code := some (PVal.int 137),
             reason := some (PVal.str "boom") } ∧
    some (PVal.str "boom") ≠ some (PVal.str "TimeoutKilled") := ⟨by decide, by decide⟩

theorem c2_witness :
    ({ state := "terminated", exit_code := some (PVal.int 137),
       reason := some (PVal.str "TimeoutKilled") } : Report).reason =
      some (if PVal.str "Error" = PVal.str "Error" then PVal.str "TimeoutKilled"
        else PVal.str "Error") :=
  c2_timeout_killed [("exitCode", PVal.int 137), ("reason", PVal.str "Error")]
    (PVal.str "Error") (by decide) (by decide) (by decide) (by decide)
    { state := "terminated", exit_code := some (PVal.int 137),
      reason := some (PVal.str "TimeoutKilled") } (by decide)

/-- C10 (amended): for a single-key status, the normalizer returns its
fixed-shape record (key set `state`, `exit_code`, `reason`, `started_at`,
`finished_at`, `container`) when every nested field name is a translation
table key and every `containerID` value is a string; a nested name outside
the table raises `KeyError`; but the names-only precondition of the claim
does not make the error branch unreachable — a known name with a non-string
`containerID` value raises `AttributeError` (see counterexample). -/
theorem c10_key_safety (s : String) (nested : Nested) :
    ((∀ p ∈ nested, p.1 ∈ _TRANSLATION_TABLE.map Prod.fst ∧
        (p.1 = "containerID" → ∃ c, p.2 = PVal.str c)) →
      ∃ rep, _status_report [(s, nested)] = some rep) ∧
    ((∃ p ∈ nested, p.1 ∉ _TRANSLATION_TABLE.map Prod.fst) →
      _status_report [(s, nested)] = Option.none) := by
  constructor
  · intro hvalid
    exact report_fields_isSome nested { state := s } hvalid
  · intro hbad
    exact report_fields_none nested { state := s } hbad

/-- C10 counterexample: `containerID` is a known nested field name, yet a
non-string value under it makes the normalizer raise (`AttributeError` on
`value.startswith`) instead of returning the fixed-shape record. -/
theorem c10_counterexample :
    ("containerID" ∈ _TRANSLATION_TABLE.map Prod.fst) ∧
    _status_report [("running", [("containerID", PVal.int 3)])] = Option.none :=
  ⟨by decide, by decide⟩

theorem c10_witness :
    _status_report [("running", [("oops", PVal.int 1)])] = Option.none :=
  (c10_key_safety "running" [("oops", PVal.int 1)]).2
    ⟨("oops", PVal.int 1), by decide, by decide⟩

/-! ### Claims C1 and C9: namespace preconditions and pod-log responses -/

/-- C1 (code bug): `run_solver`'s middletier check constructs
`ConfigurationError(...)` without `raise` (source line 638), so with the
middletier namespace unset and the infra namespace set the operation proceeds
to its first network interaction — fetching the solver template from the
infra namespace — instead of raising `ConfigurationError` before any network
call, unlike every other run/schedule operation. -/
theorem c1_run_solver_missing_raise :
    run_solver_first_call onlyInfraConfig =
      Except.ok (NetworkCall.getTemplate "thoth-infra" "template=solver") ∧
    truthy onlyInfraConfig.middletier_namespace = false := ⟨rfl, rfl⟩

/-- C9 (amended): for `get_pod_log`, HTTP 404 raises `NotFoundException`,
HTTP 400 returns `None`, any other status in the 400-599 range raises the
generic request failure, and any status outside 400-599 — including the
non-2xx 1xx/3xx statuses — returns the response body without raising
(`raise_for_status` only raises for 4xx/5xx). -/
theorem c9_pod_log_response (status_code : Nat) (text pod_id namespace_ : String) :
    (status_code = 404 →
      get_pod_log_handle_response status_code text pod_id namespace_ =
        Except.error (OSError.notFoundException
          ("Pod with id " ++ pod_id ++ " was not found in namespace " ++ namespace_))) ∧
    (status_code = 400 →
      get_pod_log_handle_response status_code text pod_id namespace_ =
        Except.ok Option.none) ∧
    (400 ≤ status_code → status_code < 600 → status_code ≠ 404 → status_code ≠ 400 →
      get_pod_log_handle_response status_code text pod_id namespace_ =
        Except.error (OSError.httpError status_code)) ∧
    (¬(400 ≤ status_code ∧ status_code < 600) →
      get_pod_log_handle_response status_code text pod_id namespace_ =
        Except.ok (some text)) := by
  refine ⟨?_, ?_, ?_, ?_⟩
  · intro h
    subst h
    rfl
  · intro h
    subst h
    rfl
  · intro h1 h2 h3 h4
    have hrs : raise_for_status_raises status_code = true := by
      simp [raise_for_status_raises, h1, h2]
    rw [get_pod_log_handle_response, if_neg h3, if_neg h4, if_pos hrs]
  · intro h
    have h404 : status_code ≠ 404 := by
      intro he
      exact h (by rw [he]; exact ⟨by omega, by omega⟩)
    have h400 : status_code ≠ 400 := by
      intro he
      exact h (by rw [he]; exact ⟨by omega, by omega⟩)
    have hrs : raise_for_status_raises status_code = false := by
      rcases Nat.lt_or_ge status_code 400 with hlt | hge
      · simp [raise_for_status_raises]
        omega
      · have h600 : 600 ≤ status_code := by
          by_contra hcon
          exact h ⟨hge, by omega⟩
        simp [raise_for_status_raises]
        omega
    rw [get_pod_log_handle_response, if_neg h404, if_neg h400,
      if_neg (by rw [hrs]; exact Bool.false_ne_true)]

/-- C9 counterexample: HTTP 304 is a non-2xx status, yet the pod-log handler
returns the response body instead of raising a generic request failure. -/
theorem c9_counterexample :
    get_pod_log_handle_response 304 "cached" "pod1" "ns1" = Except.ok (some "cached") ∧
    ¬(200 ≤ 304 ∧ 304 < 300) := ⟨rfl, by decide⟩

theorem c9_witness :
    get_pod_log_handle_response 500 "body" "pod1" "ns1" =
      Except.error (OSError.httpError 500) ∧
    get_pod_log_handle_response 304 "body" "pod1" "ns1" = Except.ok (some "body") :=
  ⟨(c9_pod_log_response 500 "body" "pod1" "ns1").2.2.1
      (by decide) (by decide) (by decide) (by decide),
   (c9_pod_log_response 304 "body" "pod1" "ns1").2.2.2 (by decide)⟩

end OpenShift
